import Mathlib

/-
  Verification of the BasketStats scorekeeping core (src/js/app.js).

  The development shallowly embeds the Store object: its per-player
  aggregate record, the two team records, the append-only action log and
  the mutating operations (reset, addPlayer, togglePlayerActive,
  recordAction, updateStats, adjustScore) together with the StatsUtils
  helpers.  JS numbers holding integer counters are modelled as Nat
  (team score as Int, since the manual adjustment takes signed deltas),
  and the floating point arithmetic of StatsUtils as exact rationals.
  External inputs of the code (Date.now readings, the timer string, the
  randomly generated player ids, DOM values) are passed as explicit
  parameters.
-/

namespace BasketStats

/-- Per-player aggregate record, shape of Store.createEmptyStats
(src/js/app.js lines 74-85). -/
structure Stats where
  pts : Nat
  fg2m : Nat
  fg2a : Nat
  fg3m : Nat
  fg3a : Nat
  ftm : Nat
  fta : Nat
  orb : Nat
  drb : Nat
  ast : Nat
  stl : Nat
  blk : Nat
  tov : Nat
  pf : Nat
  ofd : Nat
  time : Nat
deriving DecidableEq, Repr

/-- Store.createEmptyStats: every counter starts at 0. -/
def createEmptyStats : Stats :=
  { pts := 0, fg2m := 0, fg2a := 0, fg3m := 0, fg3a := 0, ftm := 0, fta := 0
    orb := 0, drb := 0, ast := 0, stl := 0, blk := 0, tov := 0, pf := 0
    ofd := 0, time := 0 }

/-- One of the two team records held in Store.data.teams. -/
structure TeamRecord where
  id : String
  name : String
  score : Int
  fouls : Nat
  color : Option String
deriving DecidableEq, Repr

/-- The Store.data.teams object: exactly the keys home and visitor. -/
structure Teams where
  home : TeamRecord
  visitor : TeamRecord
deriving DecidableEq, Repr

/-- A roster entry as pushed by Store.addPlayer (src/js/app.js lines 61-72). -/
structure Player where
  id : String
  number : String
  name : String
  team : String
  active : Bool
  stats : Stats
deriving DecidableEq, Repr

/-- A ledger entry as pushed by Store.recordAction (src/js/app.js lines
100-109).  The optional x and y fields come from the spread of extraData
holding shot coordinates. -/
structure LogEntry where
  id : Nat
  playerId : String
  team : String
  action : String
  quarter : Nat
  gameTime : String
  x : Option Rat
  y : Option Rat
deriving DecidableEq, Repr

/-- The Store.data record. -/
structure StoreData where
  gameId : Option Nat
  date : Option String
  teams : Teams
  players : List Player
  log : List LogEntry
  quarter : Nat
  gameActive : Bool
deriving DecidableEq, Repr

/-- Effect of this.data.teams[teamKey].score += n inside updateStats.  In the
source the lookup happens with teamKey equal to the recorded player.team; a
key other than home or visitor would be a TypeError in JS and never arises
for players created through the UI, so it is modelled as a no-op. -/
def addScore (teams : Teams) (teamKey : String) (n : Int) : Teams :=
  if teamKey = "home" then
    { teams with home := { teams.home with score := teams.home.score + n } }
  else if teamKey = "visitor" then
    { teams with visitor := { teams.visitor with score := teams.visitor.score + n } }
  else teams

/-- Effect of this.data.teams[teamKey].fouls++ inside updateStats, with the
same key convention as addScore. -/
def addFoul (teams : Teams) (teamKey : String) : Teams :=
  if teamKey = "home" then
    { teams with home := { teams.home with fouls := teams.home.fouls + 1 } }
  else if teamKey = "visitor" then
    { teams with visitor := { teams.visitor with fouls := teams.visitor.fouls + 1 } }
  else teams

/-- The Aggregator: Store.updateStats (src/js/app.js lines 116-137).  The JS
switch over the action tag is a chain of strict string equality tests; s is
player.stats and teamKey is player.team.  An unrecognized tag falls through
every case and changes nothing. -/
def updateStats (s : Stats) (teams : Teams) (teamKey : String) (action : String) :
    Stats × Teams :=
  if action = "fg2m" then
    ({ s with fg2m := s.fg2m + 1, fg2a := s.fg2a + 1, pts := s.pts + 2 },
      addScore teams teamKey 2)
  else if action = "fg2a" then ({ s with fg2a := s.fg2a + 1 }, teams)
  else if action = "fg3m" then
    ({ s with fg3m := s.fg3m + 1, fg3a := s.fg3a + 1, pts := s.pts + 3 },
      addScore teams teamKey 3)
  else if action = "fg3a" then ({ s with fg3a := s.fg3a + 1 }, teams)
  else if action = "ftm" then
    ({ s with ftm := s.ftm + 1, fta := s.fta + 1, pts := s.pts + 1 },
      addScore teams teamKey 1)
  else if action = "fta" then ({ s with fta := s.fta + 1 }, teams)
  else if action = "orb" then ({ s with orb := s.orb + 1 }, teams)
  else if action = "drb" then ({ s with drb := s.drb + 1 }, teams)
  else if action = "ast" then ({ s with ast := s.ast + 1 }, teams)
  else if action = "stl" then ({ s with stl := s.stl + 1 }, teams)
  else if action = "blk" then ({ s with blk := s.blk + 1 }, teams)
  else if action = "tov" then ({ s with tov := s.tov + 1 }, teams)
  else if action = "pf" then ({ s with pf := s.pf + 1 }, addFoul teams teamKey)
  else if action = "ofd" then ({ s with ofd := s.ofd + 1 }, teams)
  else (s, teams)

/-- CLAIM C1.  The scoring table of the Aggregator is exhaustive and exact:
for each of the 14 recognized action kinds, updateStats applies exactly the
deltas of that row of the table (for example twoPointMade, tag fg2m, adds 1
to fg2m, 1 to fg2a, 2 to the player points and 2 to the owning team score;
personalFoul, tag pf, adds 1 to the player pf and 1 to the owning team foul
count), and no field of the player aggregate or of either team record
outside that row is changed.  Rows without a team delta leave both team
records unchanged for every team key; rows with a team delta are stated for
both possible owning teams, the other team record being untouched. -/
theorem updateStats_scoring_table (s : Stats) (ts : Teams) (k : String) :
    updateStats s ts "home" "fg2m"
      = ({ s with fg2m := s.fg2m + 1, fg2a := s.fg2a + 1, pts := s.pts + 2 },
         { ts with home := { ts.home with score := ts.home.score + 2 } })
    ∧ updateStats s ts "visitor" "fg2m"
      = ({ s with fg2m := s.fg2m + 1, fg2a := s.fg2a + 1, pts := s.pts + 2 },
         { ts with visitor := { ts.visitor with score := ts.visitor.score + 2 } })
    ∧ updateStats s ts k "fg2a" = ({ s with fg2a := s.fg2a + 1 }, ts)
    ∧ updateStats s ts "home" "fg3m"
      = ({ s with fg3m := s.fg3m + 1, fg3a := s.fg3a + 1, pts := s.pts + 3 },
         { ts with home := { ts.home with score := ts.home.score + 3 } })
    ∧ updateStats s ts "visitor" "fg3m"
      = ({ s with fg3m := s.fg3m + 1, fg3a := s.fg3a + 1, pts := s.pts + 3 },
         { ts with visitor := { ts.visitor with score := ts.visitor.score + 3 } })
    ∧ updateStats s ts k "fg3a" = ({ s with fg3a := s.fg3a + 1 }, ts)
    ∧ updateStats s ts "home" "ftm"
      = ({ s with ftm := s.ftm + 1, fta := s.fta + 1, pts := s.pts + 1 },
         { ts with home := { ts.home with score := ts.home.score + 1 } })
    ∧ updateStats s ts "visitor" "ftm"
      = ({ s with ftm := s.ftm + 1, fta := s.fta + 1, pts := s.pts + 1 },
         { ts with visitor := { ts.visitor with score := ts.visitor.score + 1 } })
    ∧ updateStats s ts k "fta" = ({ s with fta := s.fta + 1 }, ts)
    ∧ updateStats s ts k "orb" = ({ s with orb := s.orb + 1 }, ts)
    ∧ updateStats s ts k "drb" = ({ s with drb := s.drb + 1 }, ts)
    ∧ updateStats s ts k "ast" = ({ s with ast := s.ast + 1 }, ts)
    ∧ updateStats s ts k "stl" = ({ s with stl := s.stl + 1 }, ts)
    ∧ updateStats s ts k "blk" = ({ s with blk := s.blk + 1 }, ts)
    ∧ updateStats s ts k "tov" = ({ s with tov := s.tov + 1 }, ts)
    ∧ updateStats s ts "home" "pf"
      = ({ s with pf := s.pf + 1 },
         { ts with home := { ts.home with fouls := ts.home.fouls + 1 } })
    ∧ updateStats s ts "visitor" "pf"
      = ({ s with pf := s.pf + 1 },
         { ts with visitor := { ts.visitor with fouls := ts.visitor.fouls + 1 } })
    ∧ updateStats s ts k "ofd" = ({ s with ofd := s.ofd + 1 }, ts) := by
  refine ⟨?_, ?_, ?_, ?_, ?_, ?_, ?_, ?_, ?_, ?_, ?_, ?_, ?_, ?_, ?_, ?_, ?_, ?_⟩ <;>
    simp [updateStats, addScore, addFoul]

/-- Store.reset (src/js/app.js lines 45-59): the fresh session.  gameId is
the Date.now reading and date the ISO string at reset time, both external
inputs.  The team literals of reset carry no color field. -/
def resetData (gameId : Nat) (date : String) : StoreData :=
  { gameId := some gameId
    date := some date
    teams :=
      { home := { id := "home", name := "LOCAL", score := 0, fouls := 0, color := none }
        visitor := { id := "visitor", name := "VISITANTE", score := 0, fouls := 0, color := none } }
    players := []
    log := []
    quarter := 1
    gameActive := false }

/-- The module-level Store.data literal (src/js/app.js lines 14-25): the
state in memory before init assigns anything.  Unlike reset it has a null
gameId and date and carries a color on each team. -/
def initialData : StoreData :=
  { gameId := none
    date := none
    teams :=
      { home := { id := "home", name := "LOCAL", score := 0, fouls := 0, color := some "#000000" }
        visitor := { id := "visitor", name := "VISITANTE", score := 0, fouls := 0, color := some "#000000" } }
    players := []
    log := []
    quarter := 1
    gameActive := false }

namespace Store

/-- Store.addPlayer (src/js/app.js lines 61-72).  The id generated from
Date.now and Math.random is an external input. -/
def addPlayer (id number name teamId : String) (st : StoreData) : StoreData :=
  { st with
      players := st.players ++
        [{ id := id, number := number, name := name, team := teamId
           active := false, stats := createEmptyStats }] }

end Store

/-- In-place mutation of the first list element whose id matches, the effect
of finding a player with Array.prototype.find and assigning to its fields. -/
def updateFirst (f : Player → Player) (pid : String) : List Player → List Player
  | [] => []
  | q :: qs => if q.id == pid then f q :: qs else q :: updateFirst f pid qs

namespace Store

/-- Store.togglePlayerActive (src/js/app.js lines 87-93): flip the active
flag of the found player; no player found means no change. -/
def togglePlayerActive (pid : String) (st : StoreData) : StoreData :=
  { st with players := updateFirst (fun q => { q with active := !q.active }) pid st.players }

/-- Store.recordAction (src/js/app.js lines 95-114).  now is the Date.now
reading and gameTime the Timer string at call time, extra the optional shot
coordinates spread into the entry.  The early return on a missing player is
the rejection path, modelled as the none outcome; otherwise the entry is
appended and updateStats is applied to the found player and the owning team. -/
def recordAction (now : Nat) (gameTime : String) (playerId actionType : String)
    (extra : Option (Rat × Rat)) (st : StoreData) : Option StoreData :=
  match st.players.find? (fun pl => pl.id == playerId) with
  | none => none
  | some p =>
    let entry : LogEntry :=
      { id := now, playerId := playerId, team := p.team, action := actionType
        quarter := st.quarter, gameTime := gameTime
        x := extra.map Prod.fst, y := extra.map Prod.snd }
    let upd := updateStats p.stats st.teams p.team actionType
    some { st with
            log := st.log ++ [entry]
            players := updateFirst (fun q => { q with stats := upd.1 }) playerId st.players
            teams := upd.2 }

end Store

/-- The window.adjustScore handler (src/js/app.js lines 593-601): guarded by
the existence of teams[team], adds the signed amount and floors the score at
0. -/
def adjustScore (team : String) (amount : Int) (st : StoreData) : StoreData :=
  if team = "home" then
    let s := st.teams.home.score + amount
    { st with teams := { st.teams with home :=
        { st.teams.home with score := if s < 0 then 0 else s } } }
  else if team = "visitor" then
    let s := st.teams.visitor.score + amount
    { st with teams := { st.teams with visitor :=
        { st.teams.visitor with score := if s < 0 then 0 else s } } }
  else st

/-- The team name input listeners (src/js/app.js lines 246-253): assign the
typed value to the name of the addressed team. -/
def setTeamName (team : String) (name : String) (st : StoreData) : StoreData :=
  if team = "home" then
    { st with teams := { st.teams with home := { st.teams.home with name := name } } }
  else if team = "visitor" then
    { st with teams := { st.teams with visitor := { st.teams.visitor with name := name } } }
  else st

/-- The window.addPlayer handler (src/js/app.js lines 620-639): num and name
are the DOM input values, teamId the checked radio value.  The JS guard
if (num and name) passes exactly when both strings are non-empty (the empty
string is the only falsy string); when it fails nothing at all happens,
modelled as the none outcome. -/
def windowAddPlayer (num name teamId newId : String) (st : StoreData) : Option StoreData :=
  if num ≠ "" ∧ name ≠ "" then some (Store.addPlayer newId num name teamId st)
  else none

/-- What reading and parsing the persisted snapshot can yield at load time:
no stored value, a stored value on which JSON.parse throws, or a parsed
value that is assigned to Store.data verbatim. -/
inductive SnapshotRead
  | absent
  | unparsable
  | parsed (d : StoreData)
deriving DecidableEq, Repr

namespace Store

/-- Store.init (src/js/app.js lines 27-39).  With no stored snapshot it
calls reset; when JSON.parse throws, the catch block only logs, so the
in-memory state stays the module literal initialData and reset is not
called; when JSON.parse succeeds the parsed value is assigned to this.data
with no validation of any kind. -/
def init (read : SnapshotRead) (freshGameId : Nat) (freshDate : String) : StoreData :=
  match read with
  | .absent => resetData freshGameId freshDate
  | .unparsable => initialData
  | .parsed d => d

end Store

/-- StatsUtils.calcEFG (src/js/app.js lines 575-580), value of the efg ratio
before percentage formatting; the JS float literal 0.5 is the exact rational
1/2 and fga a sum of integer counters, so the zero test and the ratio agree
with the float computation.  Returns 0 on the fga = 0 guard (the source
formats it as the string 0.0%). -/
def calcEFG (s : Stats) : Rat :=
  let fga : Rat := (s.fg2a : Rat) + (s.fg3a : Rat)
  if fga = 0 then 0
  else ((s.fg2m : Rat) + (s.fg3m : Rat) + (1 / 2) * (s.fg3m : Rat)) / fga

/-- StatsUtils.calcTS (src/js/app.js lines 582-589), value of the ts ratio
before percentage formatting.  The JS literal 0.44 is modelled as the exact
rational 44/100; for natural counter inputs the guard fga + 0.44 * fta === 0
holds in float arithmetic exactly when fga = 0 and fta = 0, the same
condition as over the rationals. -/
def calcTS (s : Stats) : Rat :=
  let fga : Rat := (s.fg2a : Rat) + (s.fg3a : Rat)
  let fta : Rat := (s.fta : Rat)
  if fga + (44 / 100) * fta = 0 then 0
  else (s.pts : Rat) / (2 * (fga + (44 / 100) * fta))

/-- Replay of the ledger for one player: fold the reducer updateStats over
the entries in ledger order, starting from the all-zero aggregate, applying
it at the entries recorded for that player.  The stats component of
updateStats does not depend on the teams argument or the team key (lemma
updateStats_fst_indep below), so the fold passes the initial team records
and the home key. -/
def replayAggregate (log : List LogEntry) (pid : String) : Stats :=
  log.foldl
    (fun s e =>
      if e.playerId == pid then (updateStats s initialData.teams "home" e.action).1 else s)
    createEmptyStats

/-- The stats component of the Aggregator depends only on the incoming
aggregate and the action tag, not on the team records or the team key. -/
theorem updateStats_fst_indep (s : Stats) (ts ts' : Teams) (k k' : String) (a : String) :
    (updateStats s ts k a).1 = (updateStats s ts' k' a).1 := by
  by_cases h1 : a = "fg2m"
  · subst h1; rfl
  by_cases h2 : a = "fg2a"
  · subst h2; rfl
  by_cases h3 : a = "fg3m"
  · subst h3; rfl
  by_cases h4 : a = "fg3a"
  · subst h4; rfl
  by_cases h5 : a = "ftm"
  · subst h5; rfl
  by_cases h6 : a = "fta"
  · subst h6; rfl
  by_cases h7 : a = "orb"
  · subst h7; rfl
  by_cases h8 : a = "drb"
  · subst h8; rfl
  by_cases h9 : a = "ast"
  · subst h9; rfl
  by_cases h10 : a = "stl"
  · subst h10; rfl
  by_cases h11 : a = "blk"
  · subst h11; rfl
  by_cases h12 : a = "tov"
  · subst h12; rfl
  by_cases h13 : a = "pf"
  · subst h13; rfl
  by_cases h14 : a = "ofd"
  · subst h14; rfl
  simp only [updateStats, if_neg h1, if_neg h2, if_neg h3, if_neg h4, if_neg h5, if_neg h6,
    if_neg h7, if_neg h8, if_neg h9, if_neg h10, if_neg h11, if_neg h12, if_neg h13, if_neg h14]

/-- One Aggregator step preserves the points formula. -/
theorem updateStats_fst_pts (s : Stats) (ts : Teams) (k a : String)
    (h : s.pts = 2 * s.fg2m + 3 * s.fg3m + s.ftm) :
    ((updateStats s ts k a).1).pts
      = 2 * ((updateStats s ts k a).1).fg2m + 3 * ((updateStats s ts k a).1).fg3m
        + ((updateStats s ts k a).1).ftm := by
  by_cases h1 : a = "fg2m"
  · subst h1; simp [updateStats]; omega
  by_cases h2 : a = "fg2a"
  · subst h2; simp [updateStats]; omega
  by_cases h3 : a = "fg3m"
  · subst h3; simp [updateStats]; omega
  by_cases h4 : a = "fg3a"
  · subst h4; simp [updateStats]; omega
  by_cases h5 : a = "ftm"
  · subst h5; simp [updateStats]; omega
  by_cases h6 : a = "fta"
  · subst h6; simp [updateStats]; omega
  by_cases h7 : a = "orb"
  · subst h7; simp [updateStats]; omega
  by_cases h8 : a = "drb"
  · subst h8; simp [updateStats]; omega
  by_cases h9 : a = "ast"
  · subst h9; simp [updateStats]; omega
  by_cases h10 : a = "stl"
  · subst h10; simp [updateStats]; omega
  by_cases h11 : a = "blk"
  · subst h11; simp [updateStats]; omega
  by_cases h12 : a = "tov"
  · subst h12; simp [updateStats]; omega
  by_cases h13 : a = "pf"
  · subst h13; simp [updateStats]; omega
  by_cases h14 : a = "ofd"
  · subst h14; simp [updateStats]; omega
  simp only [updateStats, if_neg h1, if_neg h2, if_neg h3, if_neg h4, if_neg h5, if_neg h6,
    if_neg h7, if_neg h8, if_neg h9, if_neg h10, if_neg h11, if_neg h12, if_neg h13, if_neg h14]
  omega

/-- One Aggregator step preserves makes bounded by attempts. -/
theorem updateStats_fst_le (s : Stats) (ts : Teams) (k a : String)
    (h2 : s.fg2m ≤ s.fg2a) (h3 : s.fg3m ≤ s.fg3a) (hf : s.ftm ≤ s.fta) :
    ((updateStats s ts k a).1).fg2m ≤ ((updateStats s ts k a).1).fg2a
      ∧ ((updateStats s ts k a).1).fg3m ≤ ((updateStats s ts k a).1).fg3a
      ∧ ((updateStats s ts k a).1).ftm ≤ ((updateStats s ts k a).1).fta := by
  by_cases h1 : a = "fg2m"
  · subst h1; simp [updateStats]; omega
  by_cases h2 : a = "fg2a"
  · subst h2; simp [updateStats]; omega
  by_cases h3 : a = "fg3m"
  · subst h3; simp [updateStats]; omega
  by_cases h4 : a = "fg3a"
  · subst h4; simp [updateStats]; omega
  by_cases h5 : a = "ftm"
  · subst h5; simp [updateStats]; omega
  by_cases h6 : a = "fta"
  · subst h6; simp [updateStats]; omega
  by_cases h7 : a = "orb"
  · subst h7; simp [updateStats]; omega
  by_cases h8 : a = "drb"
  · subst h8; simp [updateStats]; omega
  by_cases h9 : a = "ast"
  · subst h9; simp [updateStats]; omega
  by_cases h10 : a = "stl"
  · subst h10; simp [updateStats]; omega
  by_cases h11 : a = "blk"
  · subst h11; simp [updateStats]; omega
  by_cases h12 : a = "tov"
  · subst h12; simp [updateStats]; omega
  by_cases h13 : a = "pf"
  · subst h13; simp [updateStats]; omega
  by_cases h14 : a = "ofd"
  · subst h14; simp [updateStats]; omega
  simp only [updateStats, if_neg h1, if_neg h2, if_neg h3, if_neg h4, if_neg h5, if_neg h6,
    if_neg h7, if_neg h8, if_neg h9, if_neg h10, if_neg h11, if_neg h12, if_neg h13, if_neg h14]
  omega

theorem replayAggregate_append (log : List LogEntry) (e : LogEntry) (pid : String) :
    replayAggregate (log ++ [e]) pid
      = if e.playerId == pid then
          (updateStats (replayAggregate log pid) initialData.teams "home" e.action).1
        else replayAggregate log pid := by
  simp [replayAggregate, List.foldl_append]

theorem replayAggregate_no_entries (pid : String) :
    ∀ (log : List LogEntry), (∀ e ∈ log, e.playerId ≠ pid) →
      replayAggregate log pid = createEmptyStats := by
  have aux : ∀ (log : List LogEntry) (s : Stats), (∀ e ∈ log, e.playerId ≠ pid) →
      log.foldl
        (fun s e =>
          if e.playerId == pid then (updateStats s initialData.teams "home" e.action).1 else s)
        s = s := by
    intro log
    induction log with
    | nil => intro s _; rfl
    | cons e l ih =>
      intro s h
      have he : (e.playerId == pid) = false :=
        beq_eq_false_iff_ne.mpr (h e (List.mem_cons_self e l))
      simp only [List.foldl_cons, he, Bool.false_eq_true, if_false]
      exact ih s (fun e' he' => h e' (List.mem_cons_of_mem e he'))
  intro log h
  exact aux log createEmptyStats h

theorem updateFirst_map_id (f : Player → Player) (pid : String)
    (hf : ∀ q, (f q).id = q.id) :
    ∀ l : List Player,
      (updateFirst f pid l).map (fun q => q.id) = l.map (fun q => q.id) := by
  intro l
  induction l with
  | nil => rfl
  | cons q qs ih =>
    by_cases h : (q.id == pid) = true
    · simp [updateFirst, h, hf]
    · simp [updateFirst, h, ih]

theorem mem_updateFirst_weak (f : Player → Player) (pid : String) :
    ∀ {l : List Player} {q' : Player}, q' ∈ updateFirst f pid l →
      q' ∈ l ∨ ∃ q, q ∈ l ∧ q.id = pid ∧ q' = f q := by
  intro l
  induction l with
  | nil => intro q' h; simp [updateFirst] at h
  | cons q qs ih =>
    intro q' h
    by_cases hq : (q.id == pid) = true
    · rw [updateFirst, if_pos hq] at h
      rcases List.mem_cons.mp h with h1 | h2
      · exact Or.inr ⟨q, List.mem_cons_self q qs, by simpa using hq, h1⟩
      · exact Or.inl (List.mem_cons_of_mem q h2)
    · rw [updateFirst, if_neg (by simpa using hq)] at h
      rcases List.mem_cons.mp h with h1 | h2
      · exact Or.inl (h1 ▸ List.mem_cons_self q qs)
      · rcases ih h2 with h3 | ⟨r, hr, hrid, hre⟩
        · exact Or.inl (List.mem_cons_of_mem q h3)
        · exact Or.inr ⟨r, List.mem_cons_of_mem q hr, hrid, hre⟩

theorem updateFirst_cases (f : Player → Player) (pid : String) :
    ∀ {l : List Player} {p : Player},
      l.find? (fun r => r.id == pid) = some p →
      (l.map (fun q => q.id)).Nodup →
      ∀ q' ∈ updateFirst f pid l, (q' ∈ l ∧ q'.id ≠ pid) ∨ q' = f p := by
  intro l
  induction l with
  | nil => intro p hfind; simp at hfind
  | cons q qs ih =>
    intro p hfind hnd q' hq'
    have hnd' := hnd
    rw [List.map_cons, List.nodup_cons] at hnd'
    by_cases hq : (q.id == pid) = true
    · have hfq : List.find? (fun r => r.id == pid) (q :: qs) = some q :=
        @List.find?_cons_of_pos _ (fun r => r.id == pid) q qs hq
      have hpq : q = p := Option.some.inj (hfq.symm.trans hfind)
      rw [updateFirst, if_pos hq] at hq'
      rcases List.mem_cons.mp hq' with h1 | h2
      · exact Or.inr (hpq ▸ h1)
      · refine Or.inl ⟨List.mem_cons_of_mem q h2, ?_⟩
        intro hid
        have hqid : q.id = pid := by simpa using hq
        have hmem : q'.id ∈ List.map (fun r => r.id) qs :=
          List.mem_map_of_mem (fun r => r.id) h2
        rw [hid, ← hqid] at hmem
        exact hnd'.1 hmem
    · have hfq : List.find? (fun r => r.id == pid) (q :: qs)
          = List.find? (fun r => r.id == pid) qs :=
        @List.find?_cons_of_neg _ (fun r => r.id == pid) q qs (by simpa using hq)
      rw [hfq] at hfind
      rw [updateFirst, if_neg (by simpa using hq)] at hq'
      rcases List.mem_cons.mp hq' with h1 | h2
      · refine Or.inl ⟨h1 ▸ List.mem_cons_self q qs, ?_⟩
        intro hid
        exact (by simpa using hq : ¬q.id = pid) (h1 ▸ hid)
      · rcases ih hfind hnd'.2 q' h2 with ⟨h3, h4⟩ | h5
        · exact Or.inl ⟨List.mem_cons_of_mem q h3, h4⟩
        · exact Or.inr h5

theorem updateFirst_eq_self (f : Player → Player) (pid : String) :
    ∀ {l : List Player} {p : Player},
      l.find? (fun r => r.id == pid) = some p → f p = p →
      updateFirst f pid l = l := by
  intro l
  induction l with
  | nil => intro p hfind; simp at hfind
  | cons q qs ih =>
    intro p hfind hfp
    by_cases hq : (q.id == pid) = true
    · have hfq : List.find? (fun r => r.id == pid) (q :: qs) = some q :=
        @List.find?_cons_of_pos _ (fun r => r.id == pid) q qs hq
      have hpq : q = p := Option.some.inj (hfq.symm.trans hfind)
      rw [updateFirst, if_pos hq, hpq, hfp]
    · have hfq : List.find? (fun r => r.id == pid) (q :: qs)
          = List.find? (fun r => r.id == pid) qs :=
        @List.find?_cons_of_neg _ (fun r => r.id == pid) q qs (by simpa using hq)
      rw [hfq] at hfind
      rw [updateFirst, if_neg (by simpa using hq), ih hfind hfp]

/-- The state invariant carried through the induction on reachable states:
player ids are pairwise distinct, every ledger entry references a rostered
player, every aggregate satisfies the points formula and the makes bounds,
and every aggregate equals the replay of the ledger for that player. -/
def Inv (st : StoreData) : Prop :=
  (st.players.map (fun q => q.id)).Nodup
  ∧ (∀ e ∈ st.log, ∃ q ∈ st.players, q.id = e.playerId)
  ∧ (∀ q ∈ st.players, q.stats.pts = 2 * q.stats.fg2m + 3 * q.stats.fg3m + q.stats.ftm)
  ∧ (∀ q ∈ st.players,
      q.stats.fg2m ≤ q.stats.fg2a ∧ q.stats.fg3m ≤ q.stats.fg3a ∧ q.stats.ftm ≤ q.stats.fta)
  ∧ (∀ q ∈ st.players, q.stats = replayAggregate st.log q.id)

/-- Session states reachable from a fresh session through the mutating
operations of the store.  recordAction carries its Date.now and Timer
readings as explicit inputs, and a rejected recordAction leaves the state
as it was, so it needs no constructor.  addPlayer requires the externally
generated id to be new; the source guarantees this by construction, the id
concatenating a base-36 Date.now with a random suffix, never reused. -/
inductive Reachable : StoreData → Prop
  | fresh (gameId : Nat) (date : String) : Reachable (resetData gameId date)
  | addPlayer {st : StoreData} (id number name teamId : String) : Reachable st →
      (∀ q ∈ st.players, q.id ≠ id) →
      Reachable (Store.addPlayer id number name teamId st)
  | toggle {st : StoreData} (pid : String) : Reachable st →
      Reachable (Store.togglePlayerActive pid st)
  | record {st st' : StoreData} (now : Nat) (gameTime playerId actionType : String)
      (extra : Option (Rat × Rat)) : Reachable st →
      Store.recordAction now gameTime playerId actionType extra st = some st' →
      Reachable st'
  | adjust {st : StoreData} (team : String) (amount : Int) : Reachable st →
      Reachable (adjustScore team amount st)
  | setName {st : StoreData} (team name : String) : Reachable st →
      Reachable (setTeamName team name st)

theorem adjustScore_players (team : String) (amount : Int) (st : StoreData) :
    (adjustScore team amount st).players = st.players := by
  unfold adjustScore
  split_ifs <;> rfl

theorem adjustScore_log (team : String) (amount : Int) (st : StoreData) :
    (adjustScore team amount st).log = st.log := by
  unfold adjustScore
  split_ifs <;> rfl

theorem setTeamName_players (team name : String) (st : StoreData) :
    (setTeamName team name st).players = st.players := by
  unfold setTeamName
  split_ifs <;> rfl

theorem setTeamName_log (team name : String) (st : StoreData) :
    (setTeamName team name st).log = st.log := by
  unfold setTeamName
  split_ifs <;> rfl

theorem inv_of_players_log {st st' : StoreData} (hp : st'.players = st.players)
    (hl : st'.log = st.log) (h : Inv st) : Inv st' := by
  unfold Inv
  rw [hp, hl]
  exact h

theorem exists_id_transfer {l l' : List Player}
    (h : l'.map (fun q => q.id) = l.map (fun q => q.id)) {x : String}
    (hx : ∃ q ∈ l, q.id = x) : ∃ q' ∈ l', q'.id = x := by
  rcases hx with ⟨q, hq, rfl⟩
  have hmem : q.id ∈ l'.map (fun q => q.id) := by
    rw [h]
    exact List.mem_map_of_mem (fun q => q.id) hq
  rcases List.mem_map.mp hmem with ⟨q', hq', he⟩
  exact ⟨q', hq', he⟩

/-- Every reachable session state satisfies the full invariant. -/
theorem reachable_inv {st0 : StoreData} (h : Reachable st0) : Inv st0 := by
  induction h with
  | fresh g d =>
    refine ⟨?_, ?_, ?_, ?_, ?_⟩ <;> simp [resetData]
  | @addPlayer st id number name teamId hst hfr ih =>
    obtain ⟨ha, hb, hc, hd, he⟩ := ih
    have hid : id ∉ st.players.map (fun q => q.id) := by
      intro hmem
      rcases List.mem_map.mp hmem with ⟨q, hq, hqid⟩
      exact hfr q hq hqid
    have hnolog : ∀ e ∈ st.log, e.playerId ≠ id := by
      intro e he' heq
      rcases hb e he' with ⟨q, hq, hqe⟩
      exact hfr q hq (hqe.trans heq)
    refine ⟨?_, ?_, ?_, ?_, ?_⟩
    · simp only [Store.addPlayer, List.map_append, List.map_cons, List.map_nil]
      rw [List.nodup_append_comm]
      simp only [List.singleton_append, List.nodup_cons]
      exact ⟨hid, ha⟩
    · intro e he'
      rcases hb e he' with ⟨q, hq, hqe⟩
      exact ⟨q, List.mem_append_left _ hq, hqe⟩
    · intro q hq
      rcases List.mem_append.mp hq with h1 | h2
      · exact hc q h1
      · rw [List.mem_singleton] at h2
        subst h2
        simp [createEmptyStats]
    · intro q hq
      rcases List.mem_append.mp hq with h1 | h2
      · exact hd q h1
      · rw [List.mem_singleton] at h2
        subst h2
        simp [createEmptyStats]
    · intro q hq
      rcases List.mem_append.mp hq with h1 | h2
      · exact he q h1
      · rw [List.mem_singleton] at h2
        subst h2
        exact (replayAggregate_no_entries id st.log hnolog).symm
  | @toggle st pid hst ih =>
    obtain ⟨ha, hb, hc, hd, he⟩ := ih
    have hmap : (updateFirst (fun q => { q with active := !q.active }) pid st.players).map
        (fun q => q.id) = st.players.map (fun q => q.id) :=
      updateFirst_map_id (fun q => { q with active := !q.active }) pid
        (fun q => rfl) st.players
    refine ⟨?_, ?_, ?_, ?_, ?_⟩
    · simp only [Store.togglePlayerActive]
      rw [hmap]
      exact ha
    · intro e he'
      exact exists_id_transfer hmap (hb e he')
    · intro q hq
      rcases mem_updateFirst_weak _ pid hq with h1 | ⟨r, hr, _, hrf⟩
      · exact hc q h1
      · rw [hrf]
        exact hc r hr
    · intro q hq
      rcases mem_updateFirst_weak _ pid hq with h1 | ⟨r, hr, _, hrf⟩
      · exact hd q h1
      · rw [hrf]
        exact hd r hr
    · intro q hq
      rcases mem_updateFirst_weak _ pid hq with h1 | ⟨r, hr, _, hrf⟩
      · exact he q h1
      · rw [hrf]
        exact he r hr
  | @record st st' now gameTime playerId actionType extra hst heq ih =>
    obtain ⟨ha, hb, hc, hd, he⟩ := ih
    unfold Store.recordAction at heq
    cases hfind : st.players.find? (fun pl => pl.id == playerId) with
    | none =>
      rw [hfind] at heq
      exact absurd heq (by simp)
    | some p =>
      rw [hfind] at heq
      have hst' := (Option.some.inj heq).symm
      subst hst'
      have hp_mem : p ∈ st.players := List.mem_of_find?_eq_some hfind
      have hp_id : p.id = playerId := by simpa using List.find?_some hfind
      have hmap : (updateFirst
          (fun q => { q with stats := (updateStats p.stats st.teams p.team actionType).1 })
          playerId st.players).map (fun q => q.id) = st.players.map (fun q => q.id) :=
        updateFirst_map_id
          (fun q => { q with stats := (updateStats p.stats st.teams p.team actionType).1 })
          playerId (fun q => rfl) st.players
      refine ⟨?_, ?_, ?_, ?_, ?_⟩
      · rw [hmap]
        exact ha
      · intro e he'
        rcases List.mem_append.mp he' with h1 | h2
        · exact exists_id_transfer hmap (hb e h1)
        · rw [List.mem_singleton] at h2
          subst h2
          exact exists_id_transfer hmap ⟨p, hp_mem, hp_id⟩
      · intro q hq
        rcases updateFirst_cases _ playerId hfind ha q hq with ⟨h1, _⟩ | h2
        · exact hc q h1
        · rw [h2]
          exact updateStats_fst_pts p.stats st.teams p.team actionType (hc p hp_mem)
      · intro q hq
        rcases updateFirst_cases _ playerId hfind ha q hq with ⟨h1, _⟩ | h2
        · exact hd q h1
        · rw [h2]
          exact updateStats_fst_le p.stats st.teams p.team actionType (hd p hp_mem).1
            (hd p hp_mem).2.1 (hd p hp_mem).2.2
      · intro q hq
        rcases updateFirst_cases _ playerId hfind ha q hq with ⟨h1, hne⟩ | h2
        · rw [replayAggregate_append]
          have hneq : (playerId == q.id) = false := beq_eq_false_iff_ne.mpr (Ne.symm hne)
          simp only [hneq, Bool.false_eq_true, if_false]
          exact he q h1
        · rw [h2]
          rw [replayAggregate_append]
          have hqid : ({ p with
              stats := (updateStats p.stats st.teams p.team actionType).1 } : Player).id
                = playerId := hp_id
          rw [hqid]
          simp only [beq_self_eq_true, if_true]
          have hrepl : replayAggregate st.log playerId = p.stats := by
            rw [← hp_id]
            exact (he p hp_mem).symm
          rw [hrepl]
          exact updateStats_fst_indep p.stats st.teams initialData.teams p.team "home"
            actionType
  | @adjust st team amount hst ih =>
    exact inv_of_players_log (adjustScore_players team amount _)
      (adjustScore_log team amount _) ih
  | @setName st team name hst ih =>
    exact inv_of_players_log (setTeamName_players team name _)
      (setTeamName_log team name _) ih

/-- CLAIM C2.  For every sequence of recorded actions starting from a fresh
session, every player aggregate satisfies points = 2 fg2m + 3 fg3m + 1 ftm
after every step. -/
theorem points_formula_invariant {st : StoreData} (h : Reachable st) :
    ∀ p ∈ st.players, p.stats.pts = 2 * p.stats.fg2m + 3 * p.stats.fg3m + p.stats.ftm :=
  fun p hp => (reachable_inv h).2.2.1 p hp

/-- CLAIM C3.  For every sequence of recorded actions starting from a fresh
session, every player aggregate satisfies fg2m at most fg2a, fg3m at most
fg3a and ftm at most fta after every step. -/
theorem makes_le_attempts_invariant {st : StoreData} (h : Reachable st) :
    ∀ p ∈ st.players,
      p.stats.fg2m ≤ p.stats.fg2a ∧ p.stats.fg3m ≤ p.stats.fg3a ∧ p.stats.ftm ≤ p.stats.fta :=
  fun p hp => (reachable_inv h).2.2.2.1 p hp

/-- CLAIM C4.  Replay determinism: for every reachable session state, folding
the reducer updateStats over the ledger entries in ledger order, starting
from the all-zero aggregate, reproduces exactly the current aggregate of
each rostered player. -/
theorem replay_reproduces_aggregates {st : StoreData} (h : Reachable st) :
    ∀ p ∈ st.players, replayAggregate st.log p.id = p.stats :=
  fun p hp => ((reachable_inv h).2.2.2.2 p hp).symm

/-- Fresh demo session used by the witnesses. -/
def demoFresh : StoreData := resetData 0 "2024-01-01"

/-- Demo session after adding one home player. -/
def demoRoster : StoreData := Store.addPlayer "p1" "7" "Ana" "home" demoFresh

/-- The player pushed into demoRoster. -/
def demoPlayer : Player :=
  { id := "p1", number := "7", name := "Ana", team := "home", active := false
    stats := createEmptyStats }

theorem demoRoster_reachable : Reachable demoRoster :=
  Reachable.addPlayer "p1" "7" "Ana" "home" (Reachable.fresh 0 "2024-01-01") (by decide)

/-- Demo session after a made two-pointer. -/
def demoG1 : StoreData :=
  (Store.recordAction 10 "09:58" "p1" "fg2m" none demoRoster).getD demoRoster

theorem demoG1_eq :
    Store.recordAction 10 "09:58" "p1" "fg2m" none demoRoster = some demoG1 := rfl

/-- Demo session after a made two-pointer and a personal foul. -/
def demoG2 : StoreData :=
  (Store.recordAction 20 "09:40" "p1" "pf" none demoG1).getD demoG1

theorem demoG2_eq :
    Store.recordAction 20 "09:40" "p1" "pf" none demoG1 = some demoG2 := rfl

theorem demoG2_reachable : Reachable demoG2 :=
  Reachable.record 20 "09:40" "p1" "pf" none
    (Reachable.record 10 "09:58" "p1" "fg2m" none demoRoster_reachable demoG1_eq)
    demoG2_eq

/-- The aggregate the demo player holds after the made two-pointer and the
personal foul. -/
def demoStatsFinal : Stats :=
  { createEmptyStats with pts := 2, fg2m := 1, fg2a := 1, pf := 1 }

/-- The demo player as stored in demoG2. -/
def demoPlayerFinal : Player := { demoPlayer with stats := demoStatsFinal }

/-- Witness for CLAIM C2 at a concrete reachable two-action session. -/
theorem points_formula_invariant_witness :
    demoPlayerFinal.stats.pts
      = 2 * demoPlayerFinal.stats.fg2m + 3 * demoPlayerFinal.stats.fg3m
        + demoPlayerFinal.stats.ftm :=
  points_formula_invariant demoG2_reachable demoPlayerFinal (by decide)

/-- Witness for CLAIM C3 at a concrete reachable two-action session. -/
theorem makes_le_attempts_invariant_witness :
    demoPlayerFinal.stats.fg2m ≤ demoPlayerFinal.stats.fg2a
    ∧ demoPlayerFinal.stats.fg3m ≤ demoPlayerFinal.stats.fg3a
    ∧ demoPlayerFinal.stats.ftm ≤ demoPlayerFinal.stats.fta :=
  makes_le_attempts_invariant demoG2_reachable demoPlayerFinal (by decide)

/-- Witness for CLAIM C4 at a concrete reachable two-action session. -/
theorem replay_reproduces_aggregates_witness :
    replayAggregate demoG2.log demoPlayerFinal.id = demoPlayerFinal.stats :=
  replay_reproduces_aggregates demoG2_reachable demoPlayerFinal (by decide)

/-- CLAIM C5.  recordAction with a playerId matching no rostered player takes
the rejection path (the early return, the outcome the specification names
UnknownPlayerError): no state is produced and the state the caller keeps is
unchanged in its ledger, players and team records. -/
theorem recordAction_unknown_player_rejected (now : Nat)
    (gameTime playerId actionType : String) (extra : Option (Rat × Rat))
    (st : StoreData) (h : ∀ p ∈ st.players, p.id ≠ playerId) :
    Store.recordAction now gameTime playerId actionType extra st = none
    ∧ ((Store.recordAction now gameTime playerId actionType extra st).getD st).log = st.log
    ∧ ((Store.recordAction now gameTime playerId actionType extra st).getD st).players
        = st.players
    ∧ ((Store.recordAction now gameTime playerId actionType extra st).getD st).teams
        = st.teams := by
  have hnone : Store.recordAction now gameTime playerId actionType extra st = none := by
    unfold Store.recordAction
    have hfind : st.players.find? (fun pl => pl.id == playerId) = none :=
      List.find?_eq_none.mpr (fun x hx => by simpa using h x hx)
    rw [hfind]
  rw [hnone]
  exact ⟨rfl, rfl, rfl, rfl⟩

/-- Witness for CLAIM C5: an id absent from the demo roster is rejected. -/
theorem recordAction_unknown_player_rejected_witness :
    Store.recordAction 10 "09:58" "zz" "fg2m" none demoRoster = none
    ∧ ((Store.recordAction 10 "09:58" "zz" "fg2m" none demoRoster).getD demoRoster).log
        = demoRoster.log
    ∧ ((Store.recordAction 10 "09:58" "zz" "fg2m" none demoRoster).getD demoRoster).players
        = demoRoster.players
    ∧ ((Store.recordAction 10 "09:58" "zz" "fg2m" none demoRoster).getD demoRoster).teams
        = demoRoster.teams :=
  recordAction_unknown_player_rejected 10 "09:58" "zz" "fg2m" none demoRoster (by decide)

/-- Demo session after one rebound recorded at Date.now reading 1000. -/
def demoDup1 : StoreData :=
  (Store.recordAction 1000 "09:00" "p1" "orb" none demoRoster).getD demoRoster

theorem demoDup1_eq :
    Store.recordAction 1000 "09:00" "p1" "orb" none demoRoster = some demoDup1 := rfl

/-- Demo session after a second rebound in the same millisecond. -/
def demoDup2 : StoreData :=
  (Store.recordAction 1000 "09:00" "p1" "orb" none demoDup1).getD demoDup1

theorem demoDup2_eq :
    Store.recordAction 1000 "09:00" "p1" "orb" none demoDup1 = some demoDup2 := rfl

/-- CLAIM C6 counterexample.  The sequenceId of a ledger entry is the raw
Date.now reading, so two recordAction calls within the same millisecond
append entries with equal ids: after two appends at reading 1000 the ledger
ids are 1000, 1000, neither strictly increasing nor free of repeats. -/
theorem sequenceId_repeats_counterexample :
    (Store.recordAction 1000 "09:00" "p1" "orb" none demoRoster).bind
        (Store.recordAction 1000 "09:00" "p1" "orb" none) = some demoDup2
    ∧ demoDup2.log.map (fun e => e.id) = [1000, 1000]
    ∧ ¬ List.Pairwise (fun a b => a < b) (demoDup2.log.map (fun e => e.id)) := by
  refine ⟨rfl, rfl, ?_⟩
  intro h
  rw [show demoDup2.log.map (fun e => e.id) = [1000, 1000] from rfl] at h
  exact absurd (List.rel_of_pairwise_cons h (List.mem_singleton.mpr rfl)) (by omega)

/-- CLAIM C6 (amended).  Each appended entry receives exactly the Date.now
reading as its sequenceId; appends whose reading strictly exceeds every id
already in the ledger keep the ledger ids strictly increasing (hence free of
repeats), but appends within one millisecond receive equal ids. -/
theorem sequenceId_increasing_under_advancing_clock (now : Nat)
    (gameTime playerId actionType : String) (extra : Option (Rat × Rat))
    (st st' : StoreData)
    (hrec : Store.recordAction now gameTime playerId actionType extra st = some st')
    (hgt : ∀ e ∈ st.log, e.id < now)
    (hsorted : List.Pairwise (fun a b => a < b) (st.log.map (fun e => e.id))) :
    st'.log.map (fun e => e.id) = st.log.map (fun e => e.id) ++ [now]
    ∧ List.Pairwise (fun a b => a < b) (st'.log.map (fun e => e.id)) := by
  unfold Store.recordAction at hrec
  cases hfind : st.players.find? (fun pl => pl.id == playerId) with
  | none =>
    rw [hfind] at hrec
    exact absurd hrec (by simp)
  | some p =>
    rw [hfind] at hrec
    have hst' := (Option.some.inj hrec).symm
    subst hst'
    constructor
    · simp
    · rw [List.map_append, List.pairwise_append]
      refine ⟨hsorted, by simp, ?_⟩
      intro a ha b hb
      rcases List.mem_map.mp ha with ⟨e, he, rfl⟩
      have hbnow : b = now := by simpa using hb
      rw [hbnow]
      exact hgt e he

/-- Witness for the amended CLAIM C6: one append at reading 1000 over the
empty demo ledger. -/
theorem sequenceId_increasing_witness :
    demoDup1.log.map (fun e => e.id) = demoRoster.log.map (fun e => e.id) ++ [1000]
    ∧ List.Pairwise (fun a b => a < b) (demoDup1.log.map (fun e => e.id)) :=
  sequenceId_increasing_under_advancing_clock 1000 "09:00" "p1" "orb" none demoRoster
    demoDup1 demoDup1_eq (by simp [demoRoster, Store.addPlayer, demoFresh, resetData])
    (by simp [demoRoster, Store.addPlayer, demoFresh, resetData])

/-- CLAIM C7.  calcEFG equals (fg2m + 1.5 fg3m) / (fg2a + fg3a) whenever the
attempt total is non-zero and is exactly 0 when it is zero; calcTS equals
pts / (2 (fg2a + fg3a + 0.44 fta)) whenever that denominator is non-zero and
is exactly 0 when it is zero.  The zero results are what the source formats
as the 0.0% strings. -/
theorem advancedMetrics_formulas (s : Stats) :
    ((s.fg2a : Rat) + (s.fg3a : Rat) = 0 → calcEFG s = 0)
    ∧ ((s.fg2a : Rat) + (s.fg3a : Rat) ≠ 0 →
        calcEFG s = ((s.fg2m : Rat) + (3 / 2) * (s.fg3m : Rat))
          / ((s.fg2a : Rat) + (s.fg3a : Rat)))
    ∧ (2 * ((s.fg2a : Rat) + (s.fg3a : Rat) + (44 / 100) * (s.fta : Rat)) = 0 →
        calcTS s = 0)
    ∧ (2 * ((s.fg2a : Rat) + (s.fg3a : Rat) + (44 / 100) * (s.fta : Rat)) ≠ 0 →
        calcTS s = (s.pts : Rat)
          / (2 * ((s.fg2a : Rat) + (s.fg3a : Rat) + (44 / 100) * (s.fta : Rat)))) := by
  refine ⟨?_, ?_, ?_, ?_⟩
  · intro h
    unfold calcEFG
    rw [if_pos h]
  · intro h
    unfold calcEFG
    rw [if_neg h]
    congr 1
    ring
  · intro h
    have hx : (s.fg2a : Rat) + (s.fg3a : Rat) + (44 / 100) * (s.fta : Rat) = 0 := by
      linarith
    unfold calcTS
    rw [if_pos hx]
  · intro h
    have hx : (s.fg2a : Rat) + (s.fg3a : Rat) + (44 / 100) * (s.fta : Rat) ≠ 0 := by
      intro hx0
      exact h (by rw [hx0, mul_zero])
    unfold calcTS
    rw [if_neg hx]

/-- A player aggregate holding one made two-pointer, used by the metric
witness. -/
def demoPlayerMade : Player :=
  { demoPlayer with stats := { createEmptyStats with pts := 2, fg2m := 1, fg2a := 1 } }

/-- Witness for CLAIM C7 at the zero aggregate and at a one-make aggregate. -/
theorem advancedMetrics_formulas_witness :
    calcEFG createEmptyStats = 0
    ∧ calcTS createEmptyStats = 0
    ∧ calcEFG demoPlayerMade.stats
        = ((demoPlayerMade.stats.fg2m : Rat) + (3 / 2) * (demoPlayerMade.stats.fg3m : Rat))
          / ((demoPlayerMade.stats.fg2a : Rat) + (demoPlayerMade.stats.fg3a : Rat))
    ∧ calcTS demoPlayerMade.stats
        = (demoPlayerMade.stats.pts : Rat)
          / (2 * ((demoPlayerMade.stats.fg2a : Rat) + (demoPlayerMade.stats.fg3a : Rat)
            + (44 / 100) * (demoPlayerMade.stats.fta : Rat))) :=
  ⟨(advancedMetrics_formulas createEmptyStats).1 (by norm_num [createEmptyStats]),
   (advancedMetrics_formulas createEmptyStats).2.2.1 (by norm_num [createEmptyStats]),
   (advancedMetrics_formulas demoPlayerMade.stats).2.1
     (by norm_num [demoPlayerMade, demoPlayer, createEmptyStats]),
   (advancedMetrics_formulas demoPlayerMade.stats).2.2.2
     (by norm_num [demoPlayerMade, demoPlayer, createEmptyStats])⟩

/-- A snapshot that parses but violates the session invariants: its player
carries 5 points with no recorded make.  JSON.parse accepts it, so init
installs it verbatim. -/
def corruptSnapshot : StoreData :=
  { resetData 1 "2024-01-01" with players :=
      [{ id := "p1", number := "7", name := "Ana", team := "home", active := false
         stats := { createEmptyStats with pts := 5 } }] }

/-- CLAIM C8 counterexample.  Store.init performs no validation: a snapshot
that parses but fails the session invariants (here the points formula) is
installed verbatim instead of being discarded for a fresh empty session, so
the system does operate on the invalid state. -/
theorem init_no_validation_counterexample :
    Store.init (SnapshotRead.parsed corruptSnapshot) 0 "" = corruptSnapshot
    ∧ corruptSnapshot.players ≠ []
    ∧ ¬ (∀ q ∈ corruptSnapshot.players,
          q.stats.pts = 2 * q.stats.fg2m + 3 * q.stats.fg3m + q.stats.ftm) := by
  refine ⟨rfl, by decide, by decide⟩

/-- CLAIM C8 (amended).  Only the parse failure is recovered: when JSON.parse
throws, init catches the error (it is not propagated) and the in-memory
state remains the default empty session literal, though reset is not called;
with no stored snapshot init resets; and any snapshot that parses is
installed verbatim, with no validation whatsoever. -/
theorem init_restore_behaviour (g : Nat) (d : String) (snap : StoreData) :
    Store.init SnapshotRead.unparsable g d = initialData
    ∧ initialData.players = List.nil
    ∧ initialData.log = List.nil
    ∧ initialData.teams.home.score = 0
    ∧ initialData.teams.visitor.score = 0
    ∧ initialData.quarter = 1
    ∧ Store.init SnapshotRead.absent g d = resetData g d
    ∧ Store.init (SnapshotRead.parsed snap) g d = snap :=
  ⟨rfl, rfl, rfl, rfl, rfl, rfl, rfl, rfl⟩

/-- CLAIM C9.  The add-player handler rejects an empty jersey number or an
empty name (the outcome the specification names InvalidRosterInputError)
with no player created; with both inputs non-empty it appends exactly one
player with the all-zero aggregate and the on-court flag false. -/
theorem addPlayer_validation (num name teamId newId : String) (st : StoreData) :
    ((num = "" ∨ name = "") → windowAddPlayer num name teamId newId st = none)
    ∧ (num ≠ "" → name ≠ "" →
        windowAddPlayer num name teamId newId st
          = some { st with players := st.players ++
              [{ id := newId, number := num, name := name, team := teamId, active := false
                 stats := { pts := 0, fg2m := 0, fg2a := 0, fg3m := 0, fg3a := 0, ftm := 0
                            fta := 0, orb := 0, drb := 0, ast := 0, stl := 0, blk := 0
                            tov := 0, pf := 0, ofd := 0, time := 0 } }] }) := by
  constructor
  · intro h
    unfold windowAddPlayer
    have hneg : ¬(num ≠ "" ∧ name ≠ "") := by
      rintro ⟨hn, hm⟩
      rcases h with h | h
      · exact hn h
      · exact hm h
    rw [if_neg hneg]
  · intro h1 h2
    unfold windowAddPlayer
    rw [if_pos ⟨h1, h2⟩]
    rfl

/-- Witness for CLAIM C9: an empty name is rejected and the concrete inputs
7 and Ana create the expected zero-aggregate bench player. -/
theorem addPlayer_validation_witness :
    windowAddPlayer "7" "" "home" "p9" demoFresh = none
    ∧ windowAddPlayer "7" "Ana" "home" "p9" demoFresh
        = some { demoFresh with players := demoFresh.players ++
            [{ id := "p9", number := "7", name := "Ana", team := "home", active := false
               stats := { pts := 0, fg2m := 0, fg2a := 0, fg3m := 0, fg3a := 0, ftm := 0
                          fta := 0, orb := 0, drb := 0, ast := 0, stl := 0, blk := 0
                          tov := 0, pf := 0, ofd := 0, time := 0 } }] } :=
  ⟨(addPlayer_validation "7" "" "home" "p9" demoFresh).1 (Or.inr rfl),
   (addPlayer_validation "7" "Ana" "home" "p9" demoFresh).2 (by decide) (by decide)⟩

/-- The 14 action tags recognized by the Aggregator switch. -/
def recognizedActions : List String :=
  ["fg2m", "fg2a", "fg3m", "fg3a", "ftm", "fta", "orb", "drb", "ast", "stl", "blk",
   "tov", "pf", "ofd"]

/-- CLAIM C10.  recordAction on a rostered player with an action tag outside
the 14 recognized kinds still appends one ledger entry carrying that tag,
while the players list (hence every aggregate) and both team records are
unchanged. -/
theorem recordAction_unrecognized_action (now : Nat)
    (gameTime playerId actionType : String) (extra : Option (Rat × Rat))
    (st : StoreData) (p : Player)
    (hfind : st.players.find? (fun pl => pl.id == playerId) = some p)
    (hact : actionType ∉ recognizedActions) :
    Store.recordAction now gameTime playerId actionType extra st
      = some { st with log := st.log ++
          [{ id := now, playerId := playerId, team := p.team, action := actionType
             quarter := st.quarter, gameTime := gameTime
             x := extra.map Prod.fst, y := extra.map Prod.snd }] } := by
  obtain ⟨n1, n2, n3, n4, n5, n6, n7, n8, n9, n10, n11, n12, n13, n14⟩ :
      actionType ≠ "fg2m" ∧ actionType ≠ "fg2a" ∧ actionType ≠ "fg3m"
      ∧ actionType ≠ "fg3a" ∧ actionType ≠ "ftm" ∧ actionType ≠ "fta"
      ∧ actionType ≠ "orb" ∧ actionType ≠ "drb" ∧ actionType ≠ "ast"
      ∧ actionType ≠ "stl" ∧ actionType ≠ "blk" ∧ actionType ≠ "tov"
      ∧ actionType ≠ "pf" ∧ actionType ≠ "ofd" := by
    simpa [recognizedActions] using hact
  have hupd : updateStats p.stats st.teams p.team actionType = (p.stats, st.teams) := by
    simp only [updateStats, if_neg n1, if_neg n2, if_neg n3, if_neg n4, if_neg n5,
      if_neg n6, if_neg n7, if_neg n8, if_neg n9, if_neg n10, if_neg n11, if_neg n12,
      if_neg n13, if_neg n14]
  have huf : updateFirst (fun q => { q with stats := p.stats }) playerId st.players
      = st.players :=
    updateFirst_eq_self (fun q => { q with stats := p.stats }) playerId hfind rfl
  unfold Store.recordAction
  rw [hfind]
  simp only [hupd]
  rw [huf]

/-- Witness for CLAIM C10: the unknown tag zzz appends a ledger entry on the
demo roster and changes neither the roster nor the team records. -/
theorem recordAction_unrecognized_action_witness :
    demoRoster.players.find? (fun pl => pl.id == "p1") = some demoPlayer
    ∧ "zzz" ∉ recognizedActions
    ∧ Store.recordAction 30 "09:30" "p1" "zzz" none demoRoster
        = some { demoRoster with log := demoRoster.log ++
            [{ id := 30, playerId := "p1", team := demoPlayer.team, action := "zzz"
               quarter := demoRoster.quarter, gameTime := "09:30"
               x := (none : Option (Rat × Rat)).map Prod.fst
               y := (none : Option (Rat × Rat)).map Prod.snd }] } :=
  ⟨rfl, by decide,
   recordAction_unrecognized_action 30 "09:30" "p1" "zzz" none demoRoster demoPlayer
     rfl (by decide)⟩

end BasketStats
